import Mathlib

/-!
Verification of the name-store CLI (`src/name.py`).

The program keeps a single SQLite table
`names(id INTEGER PRIMARY KEY AUTOINCREMENT, name TEXT NOT NULL UNIQUE)`
and offers add / rename / delete / list / reset operations behind a
context manager (`DatabaseManager`) that commits on normal scope exit and
rolls back (re-raising the error) on abnormal exit.

The embedding below models the store as an optional table (the `names`
table may not exist yet), each repository operation as a pure function
from store state to store state plus the lines it prints, and the
dispatcher `main` as a function of the parsed arguments, the store, an
openability flag for the connection, and the pending interactive input
lines (an empty list of pending lines models end-of-input, where Python
`input()` raises `EOFError`).
-/

namespace NameStore

/-- Errors that can arise inside a storage scope, mirroring the exception
classes the source distinguishes: `sqlite3.IntegrityError` (UNIQUE
violation), any other `sqlite3.Error` such as the missing-table
`OperationalError`, and the `ValueError` the fault-injection path raises
deliberately. -/
inductive PyErr
  | integrity
  | opError
  | valueError
deriving DecidableEq

/-- The message text carried by each modelled exception, as interpolated
into the printed error lines. -/
def errText : PyErr → String
  | PyErr.integrity => "UNIQUE constraint failed: names.name"
  | PyErr.opError => "no such table: names"
  | PyErr.valueError => "테스트 목적의 강제 오류"

/-- One row of the `names` table. -/
structure Record where
  id : Nat
  name : String
deriving DecidableEq

/-- The `names` table: its rows in rowid order plus the AUTOINCREMENT
sequence counter (reset when the table is dropped and recreated). -/
structure Table where
  seq : Nat
  rows : List Record
deriving DecidableEq

/-- The store: `none` while the `names` table does not exist. -/
abbrev Db := Option Table

/-- A freshly created `names` table. -/
def emptyTable : Table := { seq := 0, rows := [] }

/-- The `name` column of a table, in rowid order. -/
def namesOf (t : Table) : List String := t.rows.map Record.name

/-- The names held by the store (empty when the table is absent). -/
def dbNames (db : Db) : List String :=
  match db with
  | none => []
  | some t => namesOf t

/-- Effect of `INSERT INTO names (name) VALUES (?)`: a fresh
auto-incremented id and the row appended. -/
def insertRow (t : Table) (n : String) : Table :=
  { seq := t.seq + 1, rows := t.rows ++ [{ id := t.seq + 1, name := n }] }

/-- Effect of `UPDATE names SET name = new WHERE name = old`. -/
def renameRows (t : Table) (old new : String) : Table :=
  { seq := t.seq,
    rows := t.rows.map (fun r => if r.name = old then { id := r.id, name := new } else r) }

/-- Effect of `DELETE FROM names WHERE name = ?`. -/
def deleteRows (t : Table) (n : String) : Table :=
  { seq := t.seq, rows := t.rows.filter (fun r => r.name != n) }

/-- `str.lower` of Python, for the ASCII range relevant to the
confirmation check in `reset_db`. -/
def pyLower (s : String) : String := String.mk (s.data.map Char.toLower)

/-- Printed by `DatabaseManager.__exit__` when a scope exits abnormally:
the pending changes are rolled back and the error is reported. -/
def rollbackMsg (e : PyErr) : String :=
  "오류 발생 (" ++ errText e ++ "). 변경 사항이 롤백되었습니다."

/-- Success line of `add_name`. -/
def savedMsg (n : String) : String :=
  "\x27" ++ n ++ "\x27님, 데이터베이스에 저장되었습니다."

/-- Duplicate line of `add_name` (its `IntegrityError` handler). -/
def dupAddMsg (n : String) : String :=
  "\x27" ++ n ++ "\x27님은 이미 데이터베이스에 존재합니다."

/-- Generic `sqlite3.Error` line printed by the repository operations. -/
def dbErrMsg (e : PyErr) : String := "데이터베이스 오류: " ++ errText e

/-- Line of `update_name` when the old and new names coincide. -/
def sameNameMsg : String := "변경 전 이름과 변경 후 이름이 동일합니다."

/-- Success line of `update_name`. -/
def updatedMsg (old new : String) : String :=
  "\x27" ++ old ++ "\x27을(를) \x27" ++ new ++ "\x27(으)로 성공적으로 변경했습니다."

/-- Line of `update_name` when the row count after the update is zero. -/
def updateRaceMsg (old : String) : String :=
  "\x27" ++ old ++ "\x27을(를) 찾았지만 변경되지 않았습니다. (다른 문제 발생)"

/-- Not-found line of `update_name` and `delete_name`. -/
def notFoundMsg (n : String) : String :=
  "\x27" ++ n ++ "\x27을(를) 찾을 수 없습니다."

/-- Duplicate line of `update_name` (its `IntegrityError` handler). -/
def dupUpdMsg (n : String) : String :=
  "\x27" ++ n ++ "\x27은(는) 이미 데이터베이스에 존재합니다."

/-- Success line of `delete_name`. -/
def deletedMsg (n : String) : String :=
  "\x27" ++ n ++ "\x27을(를) 성공적으로 삭제했습니다."

/-- Header line of `print_all_names`. -/
def listHeader : String := "\n--- 저장된 이름 목록 ---"

/-- Line of `print_all_names` for an empty store. -/
def emptyListMsg : String := "저장된 이름이 없습니다."

/-- Cancellation line of `reset_db`. -/
def resetCancelMsg : String := "데이터베이스 초기화가 취소되었습니다."

/-- Success line of `reset_db`. -/
def resetDoneMsg : String := "데이터베이스가 초기화되었습니다."

/-- Prompt written by the add retry loop in `main` before reading a
replacement name. -/
def promptMsg (n : String) : String :=
  "\x27" ++ n ++ "\x27은(는) 이미 존재합니다. 다른 이름을 입력하세요 (취소하려면 Enter): "

/-- Cancellation line of the add retry loop (empty replacement input). -/
def addCancelMsg : String := "이름 추가가 취소되었습니다."

/-- Line of the add retry loop when `input()` raises `EOFError`. -/
def eofMsg : String := "\n입력이 중단되었습니다."

/-- Connection-failure line of `DatabaseManager.__enter__`, after which
the process exits with status 1. -/
def connErrMsg : String := "데이터베이스 연결 오류: unable to open database file"

/-- First line of the fault-injection block in `main`. -/
def testStartMsg : String := "--- 오류 발생 테스트 시작 ---"

/-- Line printed after the fault-injection insert, before the raise. -/
def testInsertMsg : String := "임시 데이터 삽입 시도 (롤백될 예정)"

/-- Line of the `ValueError` handler of the fault-injection block. -/
def expectedErrMsg : String :=
  "예상된 오류 발생 확인: " ++ errText PyErr.valueError

/-- Line of the `sqlite3.Error` handler of the fault-injection block. -/
def testDbErrMsg (e : PyErr) : String := "데이터베이스 오류 발생: " ++ errText e

/-- Last line of the fault-injection block in `main`. -/
def testEndMsg : String := "--- 오류 발생 테스트 종료 ---"

/-- Help text printed by the dispatcher when no action flag is supplied. -/
def helpText : String := "usage: name.py [-h] [-i NAME | -u OLD_NAME NEW_NAME | -d NAME | -o] [-init] [--test-error]"

/-- The name the fault-injection path inserts. -/
def testName : String := "TestErrorName"

/-- `DatabaseManager` scope semantics (`__enter__` and `__exit__` around a
body): the body returns the pending store, the lines it printed, and the
error it raised, if any.  Normal completion commits the pending store;
abnormal completion discards it (rollback), reports the rollback, and
re-raises the error. -/
def withScope (db : Db) (body : Db → Db × List String × Option PyErr) :
    Db × List String × Option PyErr :=
  match body db with
  | (pending, out, none) => (pending, out, none)
  | (_, out, some e) => (db, out ++ [rollbackMsg e], some e)

/-- Outcome of `add_name` as seen by its caller: `True` on success,
`False` split by which exception handler fired. -/
inductive AddResult
  | ok
  | duplicate
  | dbError
deriving DecidableEq

/-- `add_name`: inserts the name, relying on the UNIQUE constraint; the
`IntegrityError` handler reports a duplicate, the generic handler any
other storage error. -/
def add_name (db : Db) (n : String) : Db × List String × AddResult :=
  let r := withScope db (fun d =>
    match d with
    | none => (none, [], some PyErr.opError)
    | some t =>
      if n ∈ namesOf t then (some t, [], some PyErr.integrity)
      else (some (insertRow t n), [savedMsg n], none))
  match r with
  | (db2, out, none) => (db2, out, AddResult.ok)
  | (db2, out, some PyErr.integrity) => (db2, out ++ [dupAddMsg n], AddResult.duplicate)
  | (db2, out, some e) => (db2, out ++ [dbErrMsg e], AddResult.dbError)

/-- `update_name`: short-circuits when old and new coincide, otherwise
looks the old name up, updates it, and distinguishes success, a zero row
count, absence, a UNIQUE collision with the new name, and other storage
errors. -/
def update_name (db : Db) (old new : String) : Db × List String :=
  if old = new then (db, [sameNameMsg])
  else
    let r := withScope db (fun d =>
      match d with
      | none => (none, [], some PyErr.opError)
      | some t =>
        if old ∈ namesOf t then
          if new ∈ namesOf t then (some t, [], some PyErr.integrity)
          else
            let cnt := (t.rows.filter (fun row => row.name == old)).length
            if 0 < cnt then (some (renameRows t old new), [updatedMsg old new], none)
            else (some (renameRows t old new), [updateRaceMsg old], none)
        else (some t, [notFoundMsg old], none))
    match r with
    | (db2, out, none) => (db2, out)
    | (db2, out, some PyErr.integrity) => (db2, out ++ [dupUpdMsg new])
    | (db2, out, some e) => (db2, out ++ [dbErrMsg e])

/-- `delete_name`: deletes the matching row and reports found-and-deleted
versus not-found from the affected row count. -/
def delete_name (db : Db) (n : String) : Db × List String :=
  let r := withScope db (fun d =>
    match d with
    | none => (none, [], some PyErr.opError)
    | some t =>
      let cnt := (t.rows.filter (fun row => row.name == n)).length
      if 0 < cnt then (some (deleteRows t n), [deletedMsg n], none)
      else (some (deleteRows t n), [notFoundMsg n], none))
  match r with
  | (db2, out, none) => (db2, out)
  | (db2, out, some e) => (db2, out ++ [dbErrMsg e])

/-- Result of `SELECT name FROM names ORDER BY name`: the names sorted
ascending under the byte-wise (BINARY) collation, which on Lean strings
is the character-wise order. -/
def sortedNames (t : Table) : List String :=
  List.insertionSort (fun a b => a ≤ b) (namesOf t)

/-- The numbered listing lines of `print_all_names`, starting the shown
index at `i + 1`. -/
def numberLines : Nat → List String → List String
  | _, [] => []
  | i, n :: rest => (toString (i + 1) ++ ". " ++ n) :: numberLines (i + 1) rest

/-- `print_all_names`: queries the ordered names and prints the header
followed by either the empty-store line or the numbered listing. -/
def print_all_names (db : Db) : Db × List String :=
  let r := withScope db (fun d =>
    match d with
    | none => (none, [], some PyErr.opError)
    | some t =>
      let ns := sortedNames t
      (some t, listHeader :: (if ns = [] then [emptyListMsg] else numberLines 0 ns), none))
  match r with
  | (db2, out, none) => (db2, out)
  | (db2, out, some e) => (db2, out ++ [dbErrMsg e])

/-- `initialize_db`: `CREATE TABLE IF NOT EXISTS names (...)` — creates
the table when absent and leaves existing rows alone. -/
def initialize_db (db : Db) : Db × List String :=
  let r := withScope db (fun d =>
    match d with
    | none => (some emptyTable, [], none)
    | some _ => (d, [], none))
  (r.1, r.2.1)

/-- Outcome of `reset_db`: the resulting store, the printed lines,
whether the store was accessed (a connection scope was opened), and the
status the process terminates with inside the call, if any (`some 1`
models both the `sys.exit(1)` of a failed connection and the uncaught
`EOFError` raised by `input()` at end-of-input, which also ends the
interpreter with status 1). -/
structure ResetOut where
  db : Db
  out : List String
  opened : Bool
  exitAbort : Option Nat
deriving DecidableEq

/-- `reset_db`: asks for confirmation before touching the store; any
answer whose lowercasing is not `y` cancels without opening a
connection; otherwise the table is dropped and recreated.  The
confirmation is read from the pending input lines; an empty list models
end-of-input, where `input()` raises an uncaught `EOFError`. -/
def reset_db (canOpen : Bool) (db : Db) (inputs : List String) : ResetOut :=
  match inputs with
  | [] => { db := db, out := [], opened := false, exitAbort := some 1 }
  | conf :: _ =>
    if pyLower conf = "y" then
      if canOpen then
        { db := some emptyTable, out := [resetDoneMsg], opened := true, exitAbort := none }
      else
        { db := db, out := [connErrMsg], opened := true, exitAbort := some 1 }
    else { db := db, out := [resetCancelMsg], opened := false, exitAbort := none }

/-- The fault-injection block of `main` (`--test-error`): inside one
scope, insert `TestErrorName` and raise a `ValueError`; the scope exit
rolls back and re-raises, and the handlers below the scope report the
expected error (or a storage error, had the insert itself failed). -/
def testErrorRun (db : Db) : Db × List String :=
  let r := withScope db (fun d =>
    match d with
    | none => (none, [], some PyErr.opError)
    | some t =>
      if testName ∈ namesOf t then (some t, [], some PyErr.integrity)
      else (some (insertRow t testName), [testInsertMsg], some PyErr.valueError))
  let out2 :=
    match r.2.2 with
    | some PyErr.valueError => r.2.1 ++ [expectedErrMsg]
    | some e => r.2.1 ++ [testDbErrMsg e]
    | none => r.2.1
  (r.1, testStartMsg :: out2 ++ [testEndMsg])

/-- The interactive add retry loop of `main`: run `add_name`; while it
reports failure, prompt for a replacement name from the pending input
lines — an empty line cancels, end-of-input (exhausted lines, where
`input()` raises `EOFError`) cancels, any other line becomes the next
candidate. -/
def addLoop (db : Db) (current : String) : List String → Db × List String
  | [] =>
    match add_name db current with
    | (db2, out, AddResult.ok) => (db2, out)
    | (db2, out, _) => (db2, out ++ [promptMsg current, eofMsg])
  | inp :: rest =>
    match add_name db current with
    | (db2, out, AddResult.ok) => (db2, out)
    | (db2, out, _) =>
      if inp = "" then (db2, out ++ [promptMsg current, addCancelMsg])
      else
        let r := addLoop db2 inp rest
        (r.1, out ++ promptMsg current :: r.2)

/-- The parsed command line (after `argparse`): the four mutually
exclusive action flags, the standalone `-init` (long form
`--initialize`) flag, modelled as `initFlag`, and `--test-error`. -/
structure Args where
  input : Option String
  update : Option (String × String)
  delete : Option String
  output : Bool
  initFlag : Bool
  testError : Bool
deriving DecidableEq

/-- Python truthiness of an optional string argument: `None` and the
empty string are falsy. -/
def pyTruthy (o : Option String) : Bool :=
  match o with
  | none => false
  | some s => s != ""

/-- Result of one process run: final store, printed lines, exit status. -/
structure MainOut where
  db : Db
  out : List String
  exitCode : Nat
deriving DecidableEq

/-- The dispatcher `main`: reset short-circuits everything else; with no
action flag it prints help; `--test-error` skips table creation and runs
the fault-injection block; otherwise the table is created and exactly
one of add (with its retry loop), rename, delete, or list runs.
`canOpen` tells whether opening the store succeeds; a failed open prints
the connection error and exits with status 1. -/
def main (canOpen : Bool) (a : Args) (db : Db) (inputs : List String) : MainOut :=
  let actionSpecified := pyTruthy a.input || a.update.isSome || pyTruthy a.delete || a.output
  if a.initFlag then
    let r := reset_db canOpen db inputs
    { db := r.db, out := r.out, exitCode := r.exitAbort.getD 0 }
  else if !actionSpecified then
    { db := db, out := [helpText], exitCode := 0 }
  else if a.testError then
    if canOpen then
      let r := testErrorRun db
      { db := r.1, out := r.2, exitCode := 0 }
    else { db := db, out := [testStartMsg, connErrMsg], exitCode := 1 }
  else if !canOpen then
    { db := db, out := [connErrMsg], exitCode := 1 }
  else
    let db1 := (initialize_db db).1
    if pyTruthy a.input then
      let r := addLoop db1 (a.input.getD "") inputs
      { db := r.1, out := r.2, exitCode := 0 }
    else
      match a.update with
      | some p =>
        let r := update_name db1 p.1 p.2
        { db := r.1, out := r.2, exitCode := 0 }
      | none =>
        if pyTruthy a.delete then
          let r := delete_name db1 (a.delete.getD "")
          { db := r.1, out := r.2, exitCode := 0 }
        else
          let r := print_all_names db1
          { db := r.1, out := r.2, exitCode := 0 }

/-- The repository operations as store transformers, for stating
reachability: table creation, add, rename, delete, and reset with a
given confirmation answer. -/
inductive Op
  | init
  | add (n : String)
  | rename (old new : String)
  | del (n : String)
  | reset (conf : String)

/-- The store after one operation. -/
def step (db : Db) : Op → Db
  | Op.init => (initialize_db db).1
  | Op.add n => (add_name db n).1
  | Op.rename o n => (update_name db o n).1
  | Op.del n => (delete_name db n).1
  | Op.reset conf => (reset_db true db [conf]).db

/-- The store reached from a fresh store (no table yet) by a sequence of
operations. -/
def run (ops : List Op) : Db := ops.foldl step none

/-- The uniqueness invariant: no two records share a `name` value. -/
def UniqueNames (db : Db) : Prop := (dbNames db).Nodup

instance (db : Db) : Decidable (UniqueNames db) := by
  unfold UniqueNames; infer_instance

/-- A one-row sample store used by concrete witnesses. -/
def sampleTable : Table := { seq := 1, rows := [{ id := 1, name := "Alice" }] }

/-! Characterization lemmas for the repository operations. -/

theorem add_name_missing_table (n : String) :
    add_name none n =
      (none, [rollbackMsg PyErr.opError, dbErrMsg PyErr.opError], AddResult.dbError) := rfl

theorem add_name_dup {t : Table} {n : String} (h : n ∈ namesOf t) :
    add_name (some t) n =
      (some t, [rollbackMsg PyErr.integrity, dupAddMsg n], AddResult.duplicate) := by
  simp [add_name, withScope, h]

theorem add_name_new {t : Table} {n : String} (h : n ∉ namesOf t) :
    add_name (some t) n = (some (insertRow t n), [savedMsg n], AddResult.ok) := by
  simp [add_name, withScope, h]

theorem row_filter_pos {t : Table} {n : String} (h : n ∈ namesOf t) :
    0 < (t.rows.filter (fun row => row.name == n)).length := by
  rcases List.mem_map.mp h with ⟨r, hr, hname⟩
  exact List.length_pos_of_mem (List.mem_filter.mpr ⟨hr, by simp [hname]⟩)

theorem row_filter_nil {t : Table} {n : String} (h : n ∉ namesOf t) :
    t.rows.filter (fun row => row.name == n) = [] := by
  refine List.filter_eq_nil_iff.mpr (fun r hr => ?_)
  simp only [beq_iff_eq]
  exact fun he => h (List.mem_map.mpr ⟨r, hr, he⟩)

theorem update_name_same (db : Db) (a : String) :
    update_name db a a = (db, [sameNameMsg]) := by
  simp [update_name]

theorem update_name_missing_table {old new : String} (hne : old ≠ new) :
    update_name none old new =
      (none, [rollbackMsg PyErr.opError, dbErrMsg PyErr.opError]) := by
  simp [update_name, withScope, hne]

theorem update_name_absent {t : Table} {old new : String} (hne : old ≠ new)
    (h : old ∉ namesOf t) :
    update_name (some t) old new = (some t, [notFoundMsg old]) := by
  simp [update_name, withScope, hne, h]

theorem update_name_collision {t : Table} {old new : String} (hne : old ≠ new)
    (ho : old ∈ namesOf t) (hn : new ∈ namesOf t) :
    update_name (some t) old new =
      (some t, [rollbackMsg PyErr.integrity, dupUpdMsg new]) := by
  simp [update_name, withScope, hne, ho, hn]

theorem update_name_ok {t : Table} {old new : String} (hne : old ≠ new)
    (ho : old ∈ namesOf t) (hn : new ∉ namesOf t) :
    update_name (some t) old new =
      (some (renameRows t old new), [updatedMsg old new]) := by
  simp [update_name, withScope, hne, ho, hn, row_filter_pos ho]

theorem delete_name_missing_table (n : String) :
    delete_name none n =
      (none, [rollbackMsg PyErr.opError, dbErrMsg PyErr.opError]) := rfl

theorem delete_name_present {t : Table} {n : String} (h : n ∈ namesOf t) :
    delete_name (some t) n = (some (deleteRows t n), [deletedMsg n]) := by
  simp [delete_name, withScope, row_filter_pos h]

theorem delete_name_absent {t : Table} {n : String} (h : n ∉ namesOf t) :
    delete_name (some t) n = (some (deleteRows t n), [notFoundMsg n]) := by
  simp [delete_name, withScope, row_filter_nil h]

theorem initialize_db_eq (db : Db) :
    initialize_db db = (some (db.getD emptyTable), []) := by
  cases db <;> rfl

/-! Effect of the row-level edits on the name column. -/

theorem namesOf_insertRow (t : Table) (n : String) :
    namesOf (insertRow t n) = namesOf t ++ [n] := by
  simp [namesOf, insertRow]

theorem namesOf_renameRows (t : Table) (old new : String) :
    namesOf (renameRows t old new) =
      (namesOf t).map (fun m => if m = old then new else m) := by
  simp only [namesOf, renameRows, List.map_map]
  refine List.map_congr_left (fun r _ => ?_)
  by_cases h : r.name = old <;> simp [h]

theorem namesOf_deleteRows_sublist (t : Table) (n : String) :
    List.Sublist (namesOf (deleteRows t n)) (namesOf t) :=
  List.Sublist.map Record.name (List.filter_sublist t.rows)

/-! Sanity checks of the embedding on concrete runs. -/

example : (add_name (some sampleTable) "Alice").2.2 = AddResult.duplicate := by decide
example : dbNames (add_name (some sampleTable) "Bob").1 = ["Alice", "Bob"] := by decide
example : (update_name (some sampleTable) "Alice" "Bob").1 =
    some { seq := 1, rows := [{ id := 1, name := "Bob" }] } := by decide
example : (delete_name (some sampleTable) "Alice").1 = some { seq := 1, rows := [] } := by decide
example : (print_all_names (some sampleTable)).2 =
    [listHeader, "1. Alice"] := by decide
example : (print_all_names (some emptyTable)).2 = [listHeader, emptyListMsg] := by decide
example : (reset_db true (some sampleTable) ["y"]).db = some emptyTable := by decide
example : (testErrorRun (some sampleTable)).1 = some sampleTable := by decide

/-! Preservation of the uniqueness invariant by each operation. -/

theorem uniq_init {db : Db} (h : UniqueNames db) :
    UniqueNames ((initialize_db db).1) := by
  cases db with
  | none => simp [initialize_db_eq, UniqueNames, dbNames, emptyTable, namesOf]
  | some t => simpa [initialize_db_eq, UniqueNames, dbNames] using h

theorem uniq_add {db : Db} (n : String) (h : UniqueNames db) :
    UniqueNames ((add_name db n).1) := by
  cases db with
  | none => simpa [add_name_missing_table] using h
  | some t =>
    by_cases hm : n ∈ namesOf t
    · simpa [add_name_dup hm] using h
    · rw [add_name_new hm]
      have h1 : (n :: namesOf t).Nodup := List.nodup_cons.mpr ⟨hm, h⟩
      show (namesOf (insertRow t n)).Nodup
      rw [namesOf_insertRow]
      exact (List.perm_append_singleton n (namesOf t)).nodup_iff.mpr h1

theorem uniq_rename {db : Db} (old new : String) (h : UniqueNames db) :
    UniqueNames ((update_name db old new).1) := by
  by_cases he : old = new
  · simpa [he, update_name_same] using h
  cases db with
  | none => simpa [update_name_missing_table he] using h
  | some t =>
    by_cases ho : old ∈ namesOf t
    · by_cases hn : new ∈ namesOf t
      · simpa [update_name_collision he ho hn] using h
      · rw [update_name_ok he ho hn]
        show (namesOf (renameRows t old new)).Nodup
        rw [namesOf_renameRows]
        have hinv : (namesOf t).Nodup := h
        refine hinv.map_on ?_
        intro x hx y hy hxy
        by_cases hxo : x = old <;> by_cases hyo : y = old
        · exact hxo.trans hyo.symm
        · rw [if_pos hxo, if_neg hyo] at hxy
          exact absurd hy (hxy ▸ hn)
        · rw [if_neg hxo, if_pos hyo] at hxy
          exact absurd hx (hxy.symm ▸ hn)
        · rwa [if_neg hxo, if_neg hyo] at hxy
    · simpa [update_name_absent he ho] using h

theorem uniq_delete {db : Db} (n : String) (h : UniqueNames db) :
    UniqueNames ((delete_name db n).1) := by
  cases db with
  | none => simpa [delete_name_missing_table] using h
  | some t =>
    have hsub := namesOf_deleteRows_sublist t n
    by_cases hm : n ∈ namesOf t
    · rw [delete_name_present hm]
      exact hsub.nodup h
    · rw [delete_name_absent hm]
      exact hsub.nodup h

theorem uniq_reset {db : Db} (conf : String) (h : UniqueNames db) :
    UniqueNames ((reset_db true db [conf]).db) := by
  by_cases hc : pyLower conf = "y"
  · simp [reset_db, hc, UniqueNames, dbNames, emptyTable, namesOf]
  · simpa [reset_db, hc] using h

/-- C1: in every store state reachable from a fresh store by any
sequence of Initialize, Add, Rename, Delete and Reset, no two records
share a `name` value (case-sensitive), and each single operation
preserves that invariant. -/
theorem claim1_uniqueness_invariant :
    (∀ (db : Db) (op : Op), UniqueNames db → UniqueNames (step db op)) ∧
    (∀ ops : List Op, UniqueNames (run ops)) := by
  have hstep : ∀ (db : Db) (op : Op), UniqueNames db → UniqueNames (step db op) := by
    intro db op h
    cases op with
    | init => exact uniq_init h
    | add n => exact uniq_add n h
    | rename o n => exact uniq_rename o n h
    | del n => exact uniq_delete n h
    | reset conf => exact uniq_reset conf h
  refine ⟨hstep, ?_⟩
  intro ops
  have base : UniqueNames none := by simp [UniqueNames, dbNames]
  suffices hall : ∀ (l : List Op) (db : Db), UniqueNames db → UniqueNames (l.foldl step db) by
    exact hall ops none base
  intro l
  induction l with
  | nil => intro db h; simpa using h
  | cons op rest ih => intro db h; exact ih _ (hstep db op h)

theorem claim1_uniqueness_invariant_witness :
    UniqueNames (step (some sampleTable) (Op.add "Bob")) :=
  claim1_uniqueness_invariant.1 (some sampleTable) (Op.add "Bob") (by decide)

/-- C2: when the name is already present, Add fails with the duplicate
error (the `IntegrityError` of the UNIQUE constraint), reports it to the
caller, and leaves the store unchanged with exactly one record for the
name; in particular the second of two Adds of the same name fails this
way. -/
theorem claim2_add_duplicate :
    (∀ (t : Table) (n : String), UniqueNames (some t) → n ∈ namesOf t →
      (add_name (some t) n).1 = some t ∧
      (add_name (some t) n).2.2 = AddResult.duplicate ∧
      dupAddMsg n ∈ (add_name (some t) n).2.1 ∧
      (dbNames (add_name (some t) n).1).count n = 1) ∧
    (∀ (t : Table) (n : String), UniqueNames (some t) → n ∉ namesOf t →
      (add_name (add_name (some t) n).1 n).2.2 = AddResult.duplicate ∧
      (add_name (add_name (some t) n).1 n).1 = (add_name (some t) n).1 ∧
      (dbNames (add_name (add_name (some t) n).1 n).1).count n = 1) := by
  have h1 : ∀ (t : Table) (n : String), UniqueNames (some t) → n ∈ namesOf t →
      (add_name (some t) n).1 = some t ∧
      (add_name (some t) n).2.2 = AddResult.duplicate ∧
      dupAddMsg n ∈ (add_name (some t) n).2.1 ∧
      (dbNames (add_name (some t) n).1).count n = 1 := by
    intro t n hinv hm
    rw [add_name_dup hm]
    refine ⟨rfl, rfl, by simp, ?_⟩
    exact List.count_eq_one_of_mem hinv hm
  refine ⟨h1, ?_⟩
  intro t n hinv hm
  rw [add_name_new hm]
  have hmem : n ∈ namesOf (insertRow t n) := by
    rw [namesOf_insertRow]; exact List.mem_append_right _ (List.mem_singleton.mpr rfl)
  have hinv2 : UniqueNames (some (insertRow t n)) := by
    have := @uniq_add (some t) n hinv
    rwa [add_name_new hm] at this
  have h2 := h1 (insertRow t n) n hinv2 hmem
  exact ⟨h2.2.1, h2.1, h2.2.2.2⟩

theorem claim2_add_duplicate_witness :
    (add_name (some sampleTable) "Alice").1 = some sampleTable ∧
    (add_name (some sampleTable) "Alice").2.2 = AddResult.duplicate ∧
    dupAddMsg "Alice" ∈ (add_name (some sampleTable) "Alice").2.1 ∧
    (dbNames (add_name (some sampleTable) "Alice").1).count "Alice" = 1 :=
  claim2_add_duplicate.1 sampleTable "Alice" (by decide) (by decide)

/-- C5 counterexample: the confirmation answer "Y" is a different string
from "y", yet Reset proceeds and wipes the store, because `reset_db`
lowercases the answer before comparing it with "y". -/
theorem claim5_counterexample :
    ("Y" : String) ≠ "y" ∧
    (reset_db true (some sampleTable) ["Y"]).db = some emptyTable ∧
    (reset_db true (some sampleTable) ["Y"]).opened = true := by decide

/-- C5 (amended): Reset proceeds exactly when the lowercased
confirmation answer is "y"; on any other answer it performs no store
access at all and returns without error with the store unchanged; on
confirmation the table is dropped and recreated, so the store holds
zero records afterward. -/
theorem claim5_reset_confirmation (db : Db) (conf : String) :
    (pyLower conf ≠ "y" →
      reset_db true db [conf] =
        { db := db, out := [resetCancelMsg], opened := false, exitAbort := none }) ∧
    (pyLower conf = "y" →
      reset_db true db [conf] =
        { db := some emptyTable, out := [resetDoneMsg], opened := true, exitAbort := none } ∧
      dbNames (reset_db true db [conf]).db = []) := by
  constructor
  · intro h; simp [reset_db, h]
  · intro h; simp [reset_db, h, dbNames, emptyTable, namesOf]

theorem claim5_reset_confirmation_witness :
    reset_db true (some sampleTable) ["n"] =
      { db := some sampleTable, out := [resetCancelMsg], opened := false,
        exitAbort := none } :=
  (claim5_reset_confirmation (some sampleTable) "n").1 (by decide)

/-- C6: renaming from an absent old name (with old ≠ new) reports
not-found as a normal negative result — the output is exactly the
not-found line, no error line — and leaves the store unchanged. -/
theorem claim6_rename_absent (t : Table) (old new : String) (hne : old ≠ new)
    (h : old ∉ namesOf t) :
    update_name (some t) old new = (some t, [notFoundMsg old]) :=
  update_name_absent hne h

theorem claim6_rename_absent_witness :
    update_name (some sampleTable) "Bob" "Carol" =
      (some sampleTable, [notFoundMsg "Bob"]) :=
  claim6_rename_absent sampleTable "Bob" "Carol" (by decide) (by decide)

/-- C7: for every name and every store state, renaming a name to itself
is a no-op: it prints only the same-name message and leaves the store
unchanged. -/
theorem claim7_rename_same_noop (db : Db) (a : String) :
    update_name db a a = (db, [sameNameMsg]) := by
  simp [update_name]

/-- C3: any error raised inside a storage scope makes the scope exit
discard the pending changes (the store is exactly as before the scope),
report the rollback, and re-raise the original error; consequently the
fault-injection path (insert of "TestErrorName" followed by an injected
`ValueError`) leaves the store unchanged, with "TestErrorName" absent,
while reporting the rollback. -/
theorem claim3_rollback_on_error :
    (∀ (db : Db) (body : Db → Db × List String × Option PyErr)
        (pending : Db) (out : List String) (e : PyErr),
      body db = (pending, out, some e) →
      withScope db body = (db, out ++ [rollbackMsg e], some e)) ∧
    (∀ t : Table, testName ∉ namesOf t →
      (testErrorRun (some t)).1 = some t ∧
      testName ∉ dbNames (testErrorRun (some t)).1 ∧
      rollbackMsg PyErr.valueError ∈ (testErrorRun (some t)).2) := by
  constructor
  · intro db body pending out e h
    simp [withScope, h]
  · intro t h
    refine ⟨?_, ?_, ?_⟩ <;> simp [testErrorRun, withScope, dbNames, h]

theorem claim3_rollback_on_error_witness :
    (testErrorRun (some emptyTable)).1 = some emptyTable ∧
    testName ∉ dbNames (testErrorRun (some emptyTable)).1 ∧
    rollbackMsg PyErr.valueError ∈ (testErrorRun (some emptyTable)).2 :=
  claim3_rollback_on_error.2 emptyTable (by decide)

/-- C8 counterexample: with the names table missing, Add fails with a
non-duplicate storage error (the generic sqlite error handler fires,
returning False), and the retry loop of `main` still issues the
replacement-name prompt — contradicting the claim that the prompt is
issued only for duplicate failures and that any other storage failure
abandons the add without prompting. -/
theorem claim8_counterexample :
    (add_name none "Alice").2.2 = AddResult.dbError ∧
    promptMsg "Alice" ∈ (addLoop none "Alice" [""]).2 := by decide

/-- C8 (amended): the retry loop stops as soon as Add succeeds; after
any failed Add — duplicate or any other storage failure, both having
been reported by `add_name` — the replacement-name prompt is issued:
end-of-input cancels the add, empty input cancels the add, and any
other input restarts the loop with the new candidate name. -/
theorem claim8_retry_loop (db : Db) (cur : String) :
    (∀ inputs : List String, (add_name db cur).2.2 = AddResult.ok →
      addLoop db cur inputs = ((add_name db cur).1, (add_name db cur).2.1)) ∧
    ((add_name db cur).2.2 ≠ AddResult.ok →
      addLoop db cur [] =
        ((add_name db cur).1, (add_name db cur).2.1 ++ [promptMsg cur, eofMsg])) ∧
    (∀ rest : List String, (add_name db cur).2.2 ≠ AddResult.ok →
      addLoop db cur ("" :: rest) =
        ((add_name db cur).1, (add_name db cur).2.1 ++ [promptMsg cur, addCancelMsg])) ∧
    (∀ (inp : String) (rest : List String),
      (add_name db cur).2.2 ≠ AddResult.ok → inp ≠ "" →
      addLoop db cur (inp :: rest) =
        ((addLoop (add_name db cur).1 inp rest).1,
         (add_name db cur).2.1 ++ promptMsg cur :: (addLoop (add_name db cur).1 inp rest).2)) := by
  rcases hadd : add_name db cur with ⟨db2, out, res⟩
  refine ⟨?_, ?_, ?_, ?_⟩
  · intro inputs hok
    simp only at hok
    subst hok
    cases inputs <;> simp [addLoop, hadd]
  · intro h
    simp only at h
    cases res with
    | ok => exact absurd rfl h
    | duplicate => simp [addLoop, hadd]
    | dbError => simp [addLoop, hadd]
  · intro rest h
    simp only at h
    cases res with
    | ok => exact absurd rfl h
    | duplicate => simp [addLoop, hadd]
    | dbError => simp [addLoop, hadd]
  · intro inp rest h hne
    simp only at h
    cases res with
    | ok => exact absurd rfl h
    | duplicate => simp [addLoop, hadd, hne]
    | dbError => simp [addLoop, hadd, hne]

theorem claim8_retry_loop_witness :
    addLoop (some sampleTable) "Alice" [""] =
      ((add_name (some sampleTable) "Alice").1,
       (add_name (some sampleTable) "Alice").2.1 ++ [promptMsg "Alice", addCancelMsg]) :=
  (claim8_retry_loop (some sampleTable) "Alice").2.2.1 [] (by decide)

/-- The parsed command line holding only the -init flag. -/
def initOnlyArgs : Args :=
  { input := none, update := none, delete := none, output := false,
    initFlag := true, testError := false }

/-- C9 counterexample: invoking the program with -init while the
interactive input is already at end-of-input makes the confirmation
`input()` raise an uncaught `EOFError`, terminating the process with
status 1 even though the store opens fine. -/
theorem claim9_counterexample :
    (main true initOnlyArgs (some sampleTable) []).exitCode = 1 := by decide

theorem main_exit_aux (canOpen : Bool) (a : Args) (db : Db) (inputs : List String) :
    (main canOpen a db inputs).exitCode = 0 ∨
    ((main canOpen a db inputs).exitCode = 1 ∧
      (canOpen = false ∨ (a.initFlag = true ∧ inputs = []))) := by
  by_cases hinit : a.initFlag = true
  · cases inputs with
    | nil =>
      right
      exact ⟨by simp [main, hinit, reset_db], Or.inr ⟨hinit, rfl⟩⟩
    | cons conf rest =>
      by_cases hy : pyLower conf = "y"
      · cases canOpen with
        | true => left; simp [main, hinit, reset_db, hy]
        | false =>
          right
          exact ⟨by simp [main, hinit, reset_db, hy], Or.inl rfl⟩
      · left; simp [main, hinit, reset_db, hy]
  · by_cases hact : (pyTruthy a.input || a.update.isSome || pyTruthy a.delete || a.output) = true
    · by_cases hte : a.testError = true
      · cases canOpen with
        | true => left; simp [main, hinit, hact, hte]
        | false => right; exact ⟨by simp [main, hinit, hact, hte], Or.inl rfl⟩
      · cases canOpen with
        | false => right; exact ⟨by simp [main, hinit, hact, hte], Or.inl rfl⟩
        | true =>
          left
          by_cases hin : pyTruthy a.input = true
          · simp [main, hinit, hact, hte, hin]
          · rcases hu : a.update with _ | p
            · by_cases hd : pyTruthy a.delete = true
              · simp [main, hinit, hact, hte, hin, hu, hd]
              · have ho : a.output = true := by
                  simp [hin, hu, hd] at hact
                  exact hact
                simp [main, hinit, hte, hin, hu, hd, ho]
            · simp [main, hinit, hact, hte, hin, hu]
    · left; simp [main, hinit, hact]

/-- C9 (amended): the process exit code is 0 or 1 on every invocation of
the recognized command lines, and it is nonzero only when the store
cannot be opened or when the -init confirmation prompt hits
end-of-input (whose `EOFError` is uncaught and ends the process with
status 1). -/
theorem claim9_exit_codes (canOpen : Bool) (a : Args) (db : Db)
    (inputs : List String) :
    ((main canOpen a db inputs).exitCode = 0 ∨
     (main canOpen a db inputs).exitCode = 1) ∧
    ((main canOpen a db inputs).exitCode ≠ 0 →
      canOpen = false ∨ (a.initFlag = true ∧ inputs = [])) := by
  have h := main_exit_aux canOpen a db inputs
  constructor
  · rcases h with h | h
    · exact Or.inl h
    · exact Or.inr h.1
  · intro hne
    rcases h with h | h
    · exact absurd h hne
    · exact h.2

theorem claim9_exit_codes_witness :
    ((main true initOnlyArgs (some sampleTable) []).exitCode = 0 ∨
     (main true initOnlyArgs (some sampleTable) []).exitCode = 1) ∧
    (true = false ∨ (initOnlyArgs.initFlag = true ∧ ([] : List String) = [])) := by
  have h := claim9_exit_codes true initOnlyArgs (some sampleTable) []
  exact ⟨h.1, h.2 (by decide)⟩

/-- The parsed command line holding only the --test-error flag. -/
def testErrorOnlyArgs : Args :=
  { input := none, update := none, delete := none, output := false,
    initFlag := false, testError := true }

/-- C10: with --test-error supplied but no action flag and no -init, the
dispatcher prints the help text and exits with code 0; the
fault-injection insert-and-raise path never runs and the store is
untouched, because the no-action check precedes the test-error branch
and does not count --test-error as an action. -/
theorem claim10_test_error_alone_prints_help (canOpen : Bool) (db : Db)
    (inputs : List String) :
    main canOpen testErrorOnlyArgs db inputs =
      { db := db, out := [helpText], exitCode := 0 } := by
  simp [main, testErrorOnlyArgs, pyTruthy]

/-- The store after a sequence of Adds. -/
def addAll (db : Db) (l : List String) : Db :=
  l.foldl (fun d n => (add_name d n).1) db

theorem addAll_fresh : ∀ (l : List String) (t : Table), l.Nodup →
    (∀ n ∈ l, n ∉ namesOf t) →
    ∃ t2 : Table, addAll (some t) l = some t2 ∧ namesOf t2 = namesOf t ++ l := by
  intro l
  induction l with
  | nil => intro t _ _; exact ⟨t, rfl, by simp⟩
  | cons n rest ih =>
    intro t hnd hfresh
    have hn : n ∉ namesOf t := hfresh n (List.mem_cons_self n rest)
    have hstep : addAll (some t) (n :: rest) = addAll (some (insertRow t n)) rest := by
      simp [addAll, add_name_new hn]
    have hfresh2 : ∀ m ∈ rest, m ∉ namesOf (insertRow t n) := by
      intro m hm
      rw [namesOf_insertRow]
      intro hmem
      rcases List.mem_append.mp hmem with hcase | hcase
      · exact hfresh m (List.mem_cons_of_mem n hm) hcase
      · exact (List.nodup_cons.mp hnd).1 ((List.mem_singleton.mp hcase) ▸ hm)
    rcases ih (insertRow t n) (List.nodup_cons.mp hnd).2 hfresh2 with ⟨t2, h1, h2⟩
    refine ⟨t2, by rw [hstep, h1], ?_⟩
    rw [h2, namesOf_insertRow]
    simp

theorem numberLines_length (ns : List String) : ∀ i : Nat,
    (numberLines i ns).length = ns.length := by
  induction ns with
  | nil => intro i; rfl
  | cons n rest ih => intro i; simp [numberLines, ih]

theorem firstLine_ne_emptyMsg (m : String) :
    toString (0 + 1) ++ ". " ++ m ≠ emptyListMsg := by
  intro h
  have h2 : ('1' :: '.' :: ' ' :: m.data) = emptyListMsg.data := congrArg String.data h
  have h3 : emptyListMsg.data.head? = some '1' := by rw [← h2]; rfl
  have h4 : emptyListMsg.data.head? = some '저' := by decide
  rw [h3] at h4
  exact absurd h4 (by decide)

/-- C4: starting from the freshly created empty table, after any
sequence of Adds with pairwise distinct names, ListAll returns exactly
those names — a permutation of them in lexicographically ascending
order — the query leaves the store unchanged, and the empty store is
reported distinctly: the output is the header plus the no-names line
exactly when no names were added. -/
theorem claim4_listall_sorted (l : List String) (hnd : l.Nodup) :
    ∃ t : Table, addAll (some emptyTable) l = some t ∧
      List.Perm (sortedNames t) l ∧
      List.Sorted (fun a b => a ≤ b) (sortedNames t) ∧
      (print_all_names (some t)).1 = some t ∧
      ((print_all_names (some t)).2 = [listHeader, emptyListMsg] ↔ l = []) := by
  have hfresh : ∀ n ∈ l, n ∉ namesOf emptyTable := by
    intro n _ hmem
    simp [emptyTable, namesOf] at hmem
  rcases addAll_fresh l emptyTable hnd hfresh with ⟨t, h1, h2⟩
  have hnames : namesOf t = l := by simpa [emptyTable, namesOf] using h2
  have hperm : List.Perm (sortedNames t) l := by
    rw [sortedNames, hnames]
    exact List.perm_insertionSort _ l
  refine ⟨t, h1, hperm, List.sorted_insertionSort _ _, ?_, ?_, ?_⟩
  · simp [print_all_names, withScope]
  · intro hout
    by_contra hne
    have hsne : sortedNames t ≠ [] := by
      intro hnil
      rw [hnil] at hperm
      exact hne hperm.symm.eq_nil
    have hout2 : (print_all_names (some t)).2 =
        listHeader :: numberLines 0 (sortedNames t) := by
      simp [print_all_names, withScope, hsne]
    rw [hout2] at hout
    have hlen := congrArg List.length hout
    simp [numberLines_length] at hlen
    rcases List.length_eq_one.mp hlen with ⟨m, hm⟩
    rw [hm] at hout
    have hnum : numberLines 0 [m] = [toString (0 + 1) ++ ". " ++ m] := rfl
    rw [hnum] at hout
    injection hout with hhd htl
    injection htl with hline hnil2
    exact firstLine_ne_emptyMsg m hline
  · intro hl
    subst hl
    have hz : sortedNames t = [] := by rw [sortedNames, hnames]; rfl
    simp [print_all_names, withScope, hz]

theorem claim4_listall_sorted_witness :
    (["B", "A"] : List String).Nodup ∧
    ∃ t : Table, addAll (some emptyTable) ["B", "A"] = some t ∧
      List.Perm (sortedNames t) ["B", "A"] ∧
      List.Sorted (fun a b => a ≤ b) (sortedNames t) ∧
      (print_all_names (some t)).1 = some t ∧
      ((print_all_names (some t)).2 = [listHeader, emptyListMsg] ↔
        (["B", "A"] : List String) = []) :=
  ⟨by decide, claim4_listall_sorted ["B", "A"] (by decide)⟩

end NameStore
